import Mathlib

set_option maxHeartbeats 1000000
set_option maxRecDepth 4000

/-!
Verification of the `ai_mail_assistant` backend (`backend/app.py`,
`backend/services/llm.py`, `backend/services/email_processor.py`) against its
specification.  The Python code is shallowly embedded: strings are `String` /
`List Char`, Python dicts from `json.loads` are a `JsonValue` inductive,
raisable functions return `Except PyErr _`, and environment lookups are an
explicit `Env` record.  Unicode-sensitive Python primitives (`str.strip`,
`str.splitlines`, `\s`, `str.isupper`, `str.lower`) are modelled on their
ASCII behaviour, which is the behaviour exercised by every claim.
-/

namespace MailAssist

/-! ### Characters and Python-style string helpers -/

/-- The opening curly-brace character (written by code point). -/
def braceL : Char := Char.ofNat 123

/-- The closing curly-brace character (written by code point). -/
def braceR : Char := Char.ofNat 125

/-- The ASCII apostrophe, used inside several literal strings of the source. -/
def apos : String := String.singleton (Char.ofNat 39)

/-- ASCII fragment of the whitespace class stripped by Python `str.strip()`
    and matched by the regex class `\s` (space, tab, LF, CR, VT, FF). -/
def isPyWs (c : Char) : Bool :=
  c == ' ' || c == '\t' || c == '\n' || c == '\r' ||
  c == Char.ofNat 11 || c == Char.ofNat 12

/-- Python `str.strip()` on a character list. -/
def stripL (cs : List Char) : List Char :=
  ((cs.dropWhile isPyWs).reverse.dropWhile isPyWs).reverse

/-- Line boundaries recognised by Python `str.splitlines()`
    (LF, CR, VT, FF, FS, GS, RS, NEL, LS, PS; CRLF is handled as one break). -/
def isLineBreak (c : Char) : Bool :=
  c == '\n' || c == '\r' || c == Char.ofNat 11 || c == Char.ofNat 12 ||
  c == Char.ofNat 28 || c == Char.ofNat 29 || c == Char.ofNat 30 ||
  c == Char.ofNat 133 || c == Char.ofNat 8232 || c == Char.ofNat 8233

/-- Worker for `splitlinesL`; `acc` holds the current line reversed. -/
def splitlinesAux : List Char → List Char → List (List Char)
  | [], acc => if acc.isEmpty then [] else [acc.reverse]
  | '\r' :: '\n' :: rest, acc => acc.reverse :: splitlinesAux rest []
  | c :: rest, acc =>
    if isLineBreak c then acc.reverse :: splitlinesAux rest []
    else splitlinesAux rest (c :: acc)

/-- Python `str.splitlines()`: no trailing empty line for a trailing break. -/
def splitlinesL (cs : List Char) : List (List Char) := splitlinesAux cs []

/-- Boolean list-prefix test (`str.startswith`). -/
def isPrefixCh : List Char → List Char → Bool
  | [], _ => true
  | _ :: _, [] => false
  | p :: ps, c :: cs => p == c && isPrefixCh ps cs

/-- Worker for `wordsBy`; `acc` holds the current word reversed. -/
def wordsByAux (p : Char → Bool) : List Char → List Char → List (List Char)
  | [], acc => if acc.isEmpty then [] else [acc.reverse]
  | c :: cs, acc =>
    if p c then
      if acc.isEmpty then wordsByAux p cs []
      else acc.reverse :: wordsByAux p cs []
    else wordsByAux p cs (c :: acc)

/-- Maximal runs of characters not satisfying `p`.  This is
    `re.split(pattern, text)` followed by dropping empty pieces, which is how
    every `re.split` result is consumed in the source (`if t:` filters). -/
def wordsBy (p : Char → Bool) (cs : List Char) : List (List Char) := wordsByAux p cs []

/-- Worker for Python `str.split(sep)` with a one-character separator:
    adjacent separators produce empty segments, and `"".split` gives `[""]`. -/
def splitOnCharAux (t : Char) : List Char → List Char → List (List Char)
  | [], acc => [acc.reverse]
  | c :: cs, acc =>
    if c == t then acc.reverse :: splitOnCharAux t cs []
    else splitOnCharAux t cs (c :: acc)

/-- Python `str.split(sep)` for a single-character separator. -/
def splitOnChar (t : Char) (cs : List Char) : List (List Char) := splitOnCharAux t cs []

/-- Index of the first occurrence of `t`. -/
def firstIdx (t : Char) : List Char → Option Nat
  | [] => none
  | c :: cs => if c == t then some 0 else (firstIdx t cs).map (· + 1)

/-- Index of the last occurrence of `t`. -/
def lastIdx (t : Char) (cs : List Char) : Option Nat :=
  (firstIdx t cs.reverse).map (fun k => cs.length - 1 - k)

/-- Number of (possibly overlapping) occurrences of the pattern `p`. -/
def countOcc (p : List Char) : List Char → Nat
  | [] => 0
  | c :: cs => (if isPrefixCh p (c :: cs) then 1 else 0) + countOcc p cs

/-- Python `str.lower()` (ASCII model). -/
def pyLower (s : String) : String := String.mk (s.data.map Char.toLower)

/-- Python `"".join(strings)`. -/
def joinStr (l : List String) : String := String.mk (l.map String.data).flatten

/-- Python slicing `s[:n]`. -/
def pyTake (s : String) (n : Nat) : String := String.mk (s.data.take n)

/-! ### JSON values and `json.loads`

`json.loads` is embedded as a total, executable two-stage function: a lexer
that is structural on a fuel bound by the input length, and a shift/reduce
machine over the token list that is structural on a step budget.  Numbers keep
their source lexeme (their Python `str()` form is approximated by the lexeme,
a path no claim exercises). -/

inductive JsonValue where
  | null : JsonValue
  | bool (b : Bool) : JsonValue
  | num (lexeme : String) : JsonValue
  | str (s : String) : JsonValue
  | arr (elems : List JsonValue) : JsonValue
  | obj (fields : List (String × JsonValue)) : JsonValue

inductive JTok where
  | lbrace | rbrace | lbrack | rbrack | colon | comma
  | lit (v : JsonValue)

/-- Whitespace accepted between JSON tokens by `json.loads`. -/
def isJsonWs (c : Char) : Bool := c == ' ' || c == '\t' || c == '\n' || c == '\r'

def hexVal (c : Char) : Option Nat :=
  if '0' ≤ c && c ≤ '9' then some (c.toNat - 48)
  else if 'a' ≤ c && c ≤ 'f' then some (c.toNat - 87)
  else if 'A' ≤ c && c ≤ 'F' then some (c.toNat - 55)
  else none

/-- Scan a JSON string body after the opening quote; returns the decoded
    characters and the input after the closing quote.  Strict mode: raw control
    characters and unknown escapes are rejected, as in `json.loads`. -/
def scanStr : List Char → Option (List Char × List Char)
  | [] => none
  | '"' :: rest => some ([], rest)
  | '\\' :: 'u' :: a :: b :: c :: d :: rest =>
    match hexVal a, hexVal b, hexVal c, hexVal d with
    | some ha, some hb, some hc, some hd =>
      (scanStr rest).map
        (fun pr => (Char.ofNat (((ha * 16 + hb) * 16 + hc) * 16 + hd) :: pr.1, pr.2))
    | _, _, _, _ => none
  | '\\' :: e :: rest =>
    if e == '"' || e == '\\' || e == '/' then
      (scanStr rest).map (fun pr => (e :: pr.1, pr.2))
    else if e == 'b' then (scanStr rest).map (fun pr => (Char.ofNat 8 :: pr.1, pr.2))
    else if e == 'f' then (scanStr rest).map (fun pr => (Char.ofNat 12 :: pr.1, pr.2))
    else if e == 'n' then (scanStr rest).map (fun pr => ('\n' :: pr.1, pr.2))
    else if e == 'r' then (scanStr rest).map (fun pr => ('\r' :: pr.1, pr.2))
    else if e == 't' then (scanStr rest).map (fun pr => ('\t' :: pr.1, pr.2))
    else none
  | c :: rest =>
    if c.toNat < 32 then none
    else (scanStr rest).map (fun pr => (c :: pr.1, pr.2))

def isDigitCh (c : Char) : Bool := '0' ≤ c && c ≤ '9'

/-- Integer part of a JSON number: `0 | [1-9][0-9]*`. -/
def scanNumCore (cs : List Char) : Option (List Char × List Char) :=
  match cs with
  | [] => none
  | c :: rest =>
    if c == '0' then some ([c], rest)
    else if isDigitCh c then some (c :: rest.takeWhile isDigitCh, rest.dropWhile isDigitCh)
    else none

/-- Optional fraction part `.[0-9]+` (empty lexeme when absent). -/
def scanFrac (cs : List Char) : List Char × List Char :=
  match cs with
  | '.' :: rest =>
    let ds := rest.takeWhile isDigitCh
    if ds.isEmpty then ([], cs) else ('.' :: ds, rest.dropWhile isDigitCh)
  | _ => ([], cs)

/-- Optional exponent part `[eE][+-]?[0-9]+` (empty lexeme when absent). -/
def scanExp (cs : List Char) : List Char × List Char :=
  match cs with
  | c :: s :: rest2 =>
    if c == 'e' || c == 'E' then
      if s == '+' || s == '-' then
        let ds := rest2.takeWhile isDigitCh
        if ds.isEmpty then ([], c :: s :: rest2)
        else (c :: s :: ds, rest2.dropWhile isDigitCh)
      else
        let ds := (s :: rest2).takeWhile isDigitCh
        if ds.isEmpty then ([], c :: s :: rest2)
        else (c :: ds, (s :: rest2).dropWhile isDigitCh)
    else ([], c :: s :: rest2)
  | other => ([], other)

/-- A JSON number lexeme, as matched by `json`'s `NUMBER_RE`. -/
def scanNum (cs : List Char) : Option (List Char × List Char) :=
  let pr := match cs with
    | '-' :: rest => (['-'], rest)
    | _ => (([] : List Char), cs)
  match scanNumCore pr.2 with
  | none => none
  | some ipr =>
    let fpr := scanFrac ipr.2
    let epr := scanExp fpr.2
    some (pr.1 ++ ipr.1 ++ fpr.1 ++ epr.1, epr.2)

/-- Tokenise a JSON document.  `fuel` is structural and is instantiated with
    the input length, which bounds the recursion since every step consumes at
    least one character. -/
def lexJson : Nat → List Char → Option (List JTok)
  | _, [] => some []
  | 0, _ :: _ => none
  | fuel + 1, c :: rest =>
    if isJsonWs c then lexJson fuel rest
    else if c == braceL then (lexJson fuel rest).map (JTok.lbrace :: ·)
    else if c == braceR then (lexJson fuel rest).map (JTok.rbrace :: ·)
    else if c == '[' then (lexJson fuel rest).map (JTok.lbrack :: ·)
    else if c == ']' then (lexJson fuel rest).map (JTok.rbrack :: ·)
    else if c == ':' then (lexJson fuel rest).map (JTok.colon :: ·)
    else if c == ',' then (lexJson fuel rest).map (JTok.comma :: ·)
    else if c == '"' then
      match scanStr rest with
      | none => none
      | some pr => (lexJson fuel pr.2).map (JTok.lit (.str (String.mk pr.1)) :: ·)
    else
      match c, rest with
      | 'n', 'u' :: 'l' :: 'l' :: r => (lexJson fuel r).map (JTok.lit .null :: ·)
      | 't', 'r' :: 'u' :: 'e' :: r => (lexJson fuel r).map (JTok.lit (.bool true) :: ·)
      | 'f', 'a' :: 'l' :: 's' :: 'e' :: r => (lexJson fuel r).map (JTok.lit (.bool false) :: ·)
      | 'N', 'a' :: 'N' :: r => (lexJson fuel r).map (JTok.lit (.num "NaN") :: ·)
      | 'I', 'n' :: 'f' :: 'i' :: 'n' :: 'i' :: 't' :: 'y' :: r =>
        (lexJson fuel r).map (JTok.lit (.num "Infinity") :: ·)
      | '-', 'I' :: 'n' :: 'f' :: 'i' :: 'n' :: 'i' :: 't' :: 'y' :: r =>
        (lexJson fuel r).map (JTok.lit (.num "-Infinity") :: ·)
      | _, _ =>
        match scanNum (c :: rest) with
        | none => none
        | some pr => (lexJson fuel pr.2).map (JTok.lit (.num (String.mk pr.1)) :: ·)

/-- A partially built container on the value stack (accumulators reversed). -/
inductive PFrame where
  | arrF (elems : List JsonValue)
  | objF (fields : List (String × JsonValue)) (key : String)

inductive PMode where
  | wantValue
  | haveValue (v : JsonValue)
  | pdone (v : JsonValue)
  | pfail

/-- State of the shift/reduce value builder: remaining tokens, container
    stack, mode. -/
structure PState where
  toks : List JTok
  stack : List PFrame
  mode : PMode

/-- One step of the value builder.  Every non-terminal step consumes at least
    one token, so `toks.length + 2` steps always reach `pdone` or `pfail`. -/
def pstep (s : PState) : PState :=
  match s.mode with
  | .pdone _ => s
  | .pfail => s
  | .wantValue =>
    match s.toks with
    | .lit v :: r => ⟨r, s.stack, .haveValue v⟩
    | .lbrack :: .rbrack :: r => ⟨r, s.stack, .haveValue (.arr [])⟩
    | .lbrack :: r => ⟨r, .arrF [] :: s.stack, .wantValue⟩
    | .lbrace :: .rbrace :: r => ⟨r, s.stack, .haveValue (.obj [])⟩
    | .lbrace :: .lit (.str k) :: .colon :: r => ⟨r, .objF [] k :: s.stack, .wantValue⟩
    | _ => ⟨s.toks, s.stack, .pfail⟩
  | .haveValue v =>
    match s.stack with
    | [] =>
      match s.toks with
      | [] => ⟨[], [], .pdone v⟩
      | _ => ⟨s.toks, [], .pfail⟩
    | .arrF elems :: st =>
      match s.toks with
      | .comma :: r => ⟨r, .arrF (v :: elems) :: st, .wantValue⟩
      | .rbrack :: r => ⟨r, st, .haveValue (.arr (v :: elems).reverse)⟩
      | _ => ⟨s.toks, s.stack, .pfail⟩
    | .objF fields k :: st =>
      match s.toks with
      | .comma :: .lit (.str k2) :: .colon :: r =>
        ⟨r, .objF ((k, v) :: fields) k2 :: st, .wantValue⟩
      | .rbrace :: r => ⟨r, st, .haveValue (.obj ((k, v) :: fields).reverse)⟩
      | _ => ⟨s.toks, s.stack, .pfail⟩

/-- Iterate `pstep` for at most `fuel` steps and read off the result. -/
def runP : Nat → PState → Option JsonValue
  | 0, s => match s.mode with | .pdone v => some v | _ => none
  | fuel + 1, s =>
    match s.mode with
    | .pdone v => some v
    | .pfail => none
    | _ => runP fuel (pstep s)

/-- Model of `json.loads` on a character list: `some` a value on success, `none` where
    Python raises `json.JSONDecodeError` (including on trailing data). -/
def jsonLoadsL (cs : List Char) : Option JsonValue :=
  match lexJson cs.length cs with
  | none => none
  | some toks => runP (toks.length + 2) ⟨toks, [], .wantValue⟩

/-- Model of `json.loads` on a string. -/
def jsonLoads (t : String) : Option JsonValue := jsonLoadsL t.data

/-- Lookup in a dict built by `json.loads` from a field list: on duplicate
    keys the last binding wins, as in Python dict construction. -/
def dictGet (fields : List (String × JsonValue)) (k : String) : Option JsonValue :=
  (fields.reverse.find? (fun kv => kv.1 == k)).map (fun kv => kv.2)

/-! ### Python `str()` coercion and the output normalizer
    (`_parse_generation_to_result` in `services/llm.py`) -/

/-- Separator-joined concatenation, as in Python `", ".join`. -/
def joinSep (sep : String) : List String → String
  | [] => ""
  | [x] => x
  | x :: xs => x ++ sep ++ joinSep sep xs

/-- Python `repr()` of a decoded JSON value, to bounded depth (the bound
    mirrors Python's recursion limit; no claim evaluates containers here).
    String quoting uses the common single-quote form. -/
def pyReprF : Nat → JsonValue → String
  | _, .null => "None"
  | _, .bool true => "True"
  | _, .bool false => "False"
  | _, .num lx => lx
  | _, .str s => apos ++ s ++ apos
  | 0, .arr _ => ""
  | 0, .obj _ => ""
  | d + 1, .arr xs => "[" ++ joinSep ", " (xs.map (pyReprF d)) ++ "]"
  | d + 1, .obj fs =>
    String.singleton braceL ++
      joinSep ", " (fs.map (fun kv => apos ++ kv.1 ++ apos ++ ": " ++ pyReprF d kv.2)) ++
      String.singleton braceR

/-- Python `str()` of a decoded JSON value: a string is itself; scalars print
    as their Python forms; containers print as their `repr`. -/
def pyStr (v : JsonValue) : String :=
  match v with
  | .str s => s
  | .null => "None"
  | .bool true => "True"
  | .bool false => "False"
  | .num lx => lx
  | .arr xs => pyReprF 1000 (.arr xs)
  | .obj fs => pyReprF 1000 (.obj fs)

/-- Python exception classes raised on the paths the claims exercise.
    `runtimeError` is the builtin generic `RuntimeError`. -/
inductive PyErr where
  | runtimeError (msg : String)
  | jsonDecodeError
  | attributeError
deriving DecidableEq

/-- The result-dict shape produced by every backend (`summary`,
    `action_items`, `draft_reply_html`, `citations`, `debug`). -/
structure GenerationResult where
  summary : String
  action_items : List String
  draft_reply_html : String
  citations : List JsonValue
  debug : List (String × JsonValue)

/-- Model of `re.search` for the greedy brace pattern used at
    `llm.py:102`: a match exists iff some opening brace precedes some closing
    brace, and the match runs from the first opening brace to the last closing
    brace of the whole text. -/
def regexBraceSearch (cs : List Char) : Option (List Char) :=
  match firstIdx braceL cs, lastIdx braceR cs with
  | some i, some j => if i < j then some ((cs.drop i).take (j - i + 1)) else none
  | _, _ => none

/-- The tail of `_parse_generation_to_result` once `json.loads` produced a
    value: field lookups with defaults and `str()` coercions on a dict; any
    non-dict value raises `AttributeError` at `obj.get`. -/
def finishObj : JsonValue → Except PyErr GenerationResult
  | .obj fs =>
    let summaryV := (dictGet fs "summary").getD (.str "")
    let actionV := (dictGet fs "action_items").getD (.arr [])
    let draftV := (dictGet fs "draft_reply_html").getD (.str "")
    let items : List String :=
      match actionV with
      | .arr xs => xs.map pyStr
      | v => [pyStr v]
    .ok ⟨pyStr summaryV, items, pyStr draftV, [], [("provider", .str "external")]⟩
  | _ => .error .attributeError

/-- Model of `_parse_generation_to_result` (llm.py:95-125) on a character list.
    The second `json.loads` (on the regex match) is outside any `try` in the
    source, so its failure is an uncaught `JSONDecodeError`. -/
def parseGenCore (cs : List Char) : Except PyErr GenerationResult :=
  match jsonLoadsL cs with
  | some obj => finishObj obj
  | none =>
    match regexBraceSearch cs with
    | none =>
      .ok ⟨"Generated draft", [],
           "<p>" ++ String.mk cs ++ "</p>", [],
           [("provider", .str "external"), ("raw", .str (pyTake (String.mk cs) 1000))]⟩
    | some sub =>
      match jsonLoadsL sub with
      | some obj => finishObj obj
      | none => .error .jsonDecodeError

/-- Model of `_parse_generation_to_result` on a string. -/
def parseGenerationToResult (text : String) : Except PyErr GenerationResult :=
  parseGenCore text.data

/-! ### The deterministic/offline backend (`MockLlmClient`, llm.py:20-71) -/

/-- An email payload as the backends see it: `subject`/`body` may be absent
    from the dict, hence `Option` (the source uses `.get` with defaults). -/
structure EmailMsg where
  subject : Option String
  body : Option String

/-- Characters removed by `line.lstrip('-*• ')`. -/
def isMarkerChar (c : Char) : Bool := c == '-' || c == '*' || c == '•' || c == ' '

/-- One iteration of the action-item loop (llm.py:29-38): strip the line;
    skip empty lines; bullet lines (marker followed by a space) are kept with
    leading marker characters and surrounding whitespace removed; otherwise
    short capitalised sentences ending in a period are kept verbatim. -/
def classifyLine (raw : List Char) : Option String :=
  let line := stripL raw
  if line.isEmpty then none
  else if isPrefixCh ['-', ' '] line || isPrefixCh ['*', ' '] line ||
          isPrefixCh ['•', ' '] line then
    some (String.mk (stripL (line.dropWhile isMarkerChar)))
  else if (match line.getLast? with | some c => c == '.' | none => false) &&
          (match line.head? with | some c => c.isUpper | none => false) then
    if line.length ≤ 120 then some (String.mk line) else none
  else none

/-- Action items extracted from `email.get("body", "").strip()`. -/
def mockActionItems (body : String) : List String :=
  (splitlinesL (stripL body.data)).filterMap classifyLine

/-- The two fixed fallback action items (llm.py:41-44). -/
def defaultActionItems : List String :=
  [ "Review the email content and confirm next steps."
  , "Reply with a brief acknowledgment and proposed timeline." ]

/-- One `<li>` element of the draft list. -/
def wrapLi (item : String) : String := "<li>" ++ item ++ "</li>"

/-- Draft template before the interpolated subject. -/
def draftHead : String := "<p>Hi,</p>\n<p>Thanks for your email regarding <strong>"

/-- Draft template between the subject and the item list. -/
def draftMid : String :=
  "</strong>. Here" ++ apos ++ "s a quick recap and next steps:</p>\n<ul>"

/-- Draft template after the item list. -/
def draftTail : String := "</ul>\n<p>Best regards,<br/>AI Mail assistant</p>"

/-- The `draft_reply_html` built at llm.py:47-53: the first five action items
    wrapped in `<li>` elements inside the fixed greeting/signoff template. -/
def mockDraft (subject : String) (items : List String) : String :=
  draftHead ++ subject ++ draftMid ++ joinStr ((items.take 5).map wrapLi) ++ draftTail

/-- Model of `MockLlmClient.generate` (llm.py:23-61). -/
def mockGenerate (e : EmailMsg) : GenerationResult :=
  let subject := e.subject.getD "(no subject)"
  let extracted := mockActionItems (e.body.getD "")
  let items := if extracted.isEmpty then defaultActionItems else extracted
  ⟨"Summary of: " ++ subject, items, mockDraft subject items, [],
   [("provider", .str "mock")]⟩

/-- The canned streaming text of `MockLlmClient.astream` (llm.py:63-71). -/
def mockStreamText (e : EmailMsg) : String :=
  "Hi, Thanks for your email about " ++ e.subject.getD "(no subject)" ++
    ". I" ++ apos ++ "ll follow up shortly with next steps. Best, AI Mail assistant"

/-- Tokens yielded by `MockLlmClient.astream`: the canned text split on single
    spaces, each token re-suffixed with a space. -/
def mockStreamTokens (e : EmailMsg) : List String :=
  (splitOnChar ' ' (mockStreamText e).data).map (fun w => String.mk w ++ " ")

/-! ### Streaming pipeline (`email_processor.py` and the SSE layer of
    `app.py:103-138`) -/

/-- A chunk yielded by `process_email_streaming`. -/
inductive StreamChunk where
  | token (content : String)
  | finalChunk (data : GenerationResult)

/-- An SSE event written by the `streamer` of
    `process_email_for_addin_stream`. -/
inductive SseEvent where
  | statusUpdate (message : String)
  | token (content : String)
  | finalEv (data : GenerationResult)

def isStatusEv : SseEvent → Bool
  | .statusUpdate _ => true
  | _ => false

def isFinalEv : SseEvent → Bool
  | .finalEv _ => true
  | _ => false

/-- Model of `process_email_streaming` (email_processor.py:18-23): every streamed token
    as a token chunk, then one final chunk carrying an independent `generate`
    result. -/
def processEmailStreamingChunks (tokens : List String) (finalResult : GenerationResult) :
    List StreamChunk :=
  tokens.map StreamChunk.token ++ [StreamChunk.finalChunk finalResult]

/-- The event dispatch of the `streamer` loop (app.py:132-135). -/
def chunkToSse : StreamChunk → SseEvent
  | .token c => .token c
  | .finalChunk d => .finalEv d

/-- The full event sequence of the streaming endpoint (app.py:125-136):
    opening status, the translated chunks, closing status. -/
def streamerEvents (initMsg : String) (tokens : List String)
    (finalResult : GenerationResult) : List SseEvent :=
  [SseEvent.statusUpdate initMsg] ++
    (processEmailStreamingChunks tokens finalResult).map chunkToSse ++
    [SseEvent.statusUpdate "done"]

/-- The streaming endpoint instantiated with the mock backend: tokens come
    from `astream`, the final payload from a separate `generate` call. -/
def mockEndpointStream (e : EmailMsg) : List SseEvent :=
  streamerEvents "initialising LLM agent (mock)" (mockStreamTokens e) (mockGenerate e)

/-! ### Hosted-variant streaming models (`GeminiLlmClient.astream`,
    `GroqLlmClient.astream`).  The upstream network stream is a parameter:
    the chunk texts it delivered and an optional exception it then raised. -/

/-- Model of the regex substitution stripping HTML tags: each `<`…first-`>` span with at least one
    character between is replaced by one space; fuel is the input length. -/
def stripTagsAux : Nat → List Char → List Char
  | 0, cs => cs
  | _ + 1, [] => []
  | fuel + 1, c :: rest =>
    if c == '<' then
      match firstIdx '>' rest with
      | some i =>
        if 1 ≤ i then ' ' :: stripTagsAux fuel (rest.drop (i + 1))
        else c :: stripTagsAux fuel rest
      | none => c :: stripTagsAux fuel rest
    else c :: stripTagsAux fuel rest

def stripTags (cs : List Char) : List Char := stripTagsAux cs.length cs

/-- The degraded fallback of `GeminiLlmClient.astream` (llm.py:168-173):
    whitespace-tokenise the non-streaming draft with markup stripped, skip
    empty pieces, re-suffix each with a space. -/
def fallbackTokens (draft : String) : List String :=
  (wordsBy isPyWs (stripTags draft.data)).map (fun w => String.mk w ++ " ")

/-- Tokens yielded for one Gemini chunk text (llm.py:158-165): empty chunk
    texts are skipped, others are split on single spaces, empties dropped. -/
def geminiChunkTokens (tok : String) : List String :=
  if tok.isEmpty then []
  else ((splitOnChar ' ' tok.data).filter (fun w => !w.isEmpty)).map
    (fun w => String.mk w ++ " ")

/-- Model of `GeminiLlmClient.astream`: the tokens already yielded from delivered
    chunks, then — only if the upstream raised — the fallback tokens from the
    independent `generate` draft.  The second component is the exception the
    generator lets escape: always `none` here (the `except` swallows it). -/
def geminiAstreamModel (chunks : List String) (interrupt : Option PyErr)
    (fallbackDraft : String) : List String × Option PyErr :=
  let streamed := (chunks.map geminiChunkTokens).flatten
  match interrupt with
  | none => (streamed, none)
  | some _ => (streamed ++ fallbackTokens fallbackDraft, none)

/-- Tokens yielded for one Groq delta (llm.py:212-217): absent or falsy
    `delta.content` yields nothing. -/
def groqDeltaTokens (delta : Option String) : List String :=
  match delta with
  | none => []
  | some c =>
    if c.isEmpty then []
    else ((splitOnChar ' ' c.data).filter (fun w => !w.isEmpty)).map
      (fun w => String.mk w ++ " ")

/-- Model of `GroqLlmClient.astream` (llm.py:204-218): there is no `try`/`except`, so
    an upstream exception escapes the generator after the already-yielded
    tokens. -/
def groqAstreamModel (deltas : List (Option String)) (interrupt : Option PyErr) :
    List String × Option PyErr :=
  ((deltas.map groqDeltaTokens).flatten, interrupt)

/-! ### Environment, client construction and provider selection
    (`get_llm` in llm.py:221-230, the hosted `__init__`s, and the selection
    logic of `process_email_for_addin` in app.py:77-100) -/

/-- The environment variables the core reads, plus whether the optional SDK
    modules load (fields in order: `LLM_PROVIDER`, `GEMINI_API_KEY`,
    `GEMINI_MODEL`, `GROQ_API_KEY`, google-generativeai loadable, groq
    loadable). -/
structure Env where
  llmProvider : Option String
  geminiApiKey : Option String
  geminiModel : Option String
  groqApiKey : Option String
  genaiInstalled : Bool
  groqInstalled : Bool

/-- Which client class `get_llm` constructs. -/
inductive ClientKind where
  | mock | gemini | groq
deriving DecidableEq

/-- Python truthiness of an `os.getenv` result / optional string field:
    `None` and `""` are falsy. -/
def pyTruthy : Option String → Bool
  | none => false
  | some s => !s.isEmpty

/-- Python `a or b` on optional strings. -/
def pyOrOpt (a b : Option String) : Option String := if pyTruthy a then a else b

/-- Python `a or dflt` where `dflt` is a string literal. -/
def pyOrStr (a : Option String) (dflt : String) : String :=
  if pyTruthy a then a.getD "" else dflt

/-- Model of `GeminiLlmClient.__init__` (llm.py:129-139): raises the builtin
    `RuntimeError` when `GEMINI_API_KEY` is unset or empty, or when the SDK
    module fails to load; otherwise construction succeeds. -/
def geminiInit (env : Env) : Except PyErr ClientKind :=
  if !pyTruthy env.geminiApiKey then
    .error (.runtimeError "GEMINI_API_KEY is not set")
  else if !env.genaiInstalled then
    .error (.runtimeError "google-generativeai is not installed. Add it to requirements.")
  else .ok .gemini

/-- Model of `GroqLlmClient.__init__` (llm.py:177-186). -/
def groqInit (env : Env) : Except PyErr ClientKind :=
  if !pyTruthy env.groqApiKey then
    .error (.runtimeError "GROQ_API_KEY is not set")
  else if !env.groqInstalled then
    .error (.runtimeError "groq is not installed. Add it to requirements.")
  else .ok .groq

/-- Model of `get_llm` (llm.py:221-230): a falsy `provider` argument falls back to
    `os.getenv("LLM_PROVIDER", "mock")`; the lower-cased name selects the
    class, unknown names default to the mock client. -/
def getLlm (env : Env) (provider : String) : Except PyErr ClientKind :=
  let p := pyLower (if provider.isEmpty then env.llmProvider.getD "mock" else provider)
  if p == "mock" then .ok .mock
  else if p == "gemini" || p == "google" || p == "googleai" then geminiInit env
  else if p == "groq" then groqInit env
  else .ok .mock

/-- The `selected_input` of the one-shot endpoint (app.py:80):
    `payload.provider or os.getenv("LLM_PROVIDER")`. -/
def selectedInput (env : Env) (payloadProvider : Option String) : Option String :=
  pyOrOpt payloadProvider env.llmProvider

/-- The `effective_provider` of the one-shot endpoint (app.py:82-85), the value
    the handler logs and reports: with no selection and a `GEMINI_API_KEY`
    present it reads `"gemini"`. -/
def effectiveProvider (env : Env) (payloadProvider : Option String) : String :=
  if !pyTruthy (selectedInput env payloadProvider) && pyTruthy env.geminiApiKey then
    "gemini"
  else pyLower (pyOrStr (selectedInput env payloadProvider) "mock")

/-- The client the one-shot endpoint actually constructs (app.py:94):
    `get_llm(provider=(selected_input or ""), ...)`. -/
def endpointResolveClient (env : Env) (payloadProvider : Option String) :
    Except PyErr ClientKind :=
  getLlm env (pyOrStr (selectedInput env payloadProvider) "")

/-- The environment of claim C1: no `LLM_PROVIDER`, a non-empty
    `GEMINI_API_KEY`, SDKs importable. -/
def envGeminiOnly : Env := ⟨none, some "test-key", none, none, true, true⟩

/-- The environment with no credentials and both SDKs importable. -/
def envNoKeys : Env := ⟨none, none, none, none, true, true⟩

/-! ### Claim C1 -/

/-- C1: with no request `provider`, no `LLM_PROVIDER`, and a `GEMINI_API_KEY`
    present, the handler's own `effective_provider` (logged and reported)
    resolves to `"gemini"`, yet the client it constructs and invokes is the
    mock client: `get_llm` receives `selected_input or ""` and falls back to
    `os.getenv("LLM_PROVIDER", "mock")`.  This contradicts both the spec's
    selection precedence and the endpoint's own comment/logging, so the claim
    is right and the code is wrong. -/
theorem addin_gemini_key_fallback_resolves_mock :
    effectiveProvider envGeminiOnly none = "gemini" ∧
    endpointResolveClient envGeminiOnly none = .ok .mock := ⟨rfl, rfl⟩

/-! ### Claim C2 -/

/-- C2: the output normalizer does raise.  On `"{not json}"` the first
    `json.loads` fails, the greedy brace regex matches the whole string, and
    the second `json.loads` — outside any `try` — raises `JSONDecodeError`.
    On `"[1, 2]"` the fast path parses a list and `obj.get` raises
    `AttributeError`.  The claim (never raises) is the documented intent of
    the three-tier fallback, so this is a bug in the code. -/
theorem normalizer_raises_on_malformed_region :
    parseGenerationToResult "\x7bnot json\x7d" = .error .jsonDecodeError ∧
    parseGenerationToResult "[1, 2]" = .error .attributeError := ⟨rfl, rfl⟩

/-! ### Claims C4 and C5: the action-item heuristic -/

/-- C4 counterexample: a line whose bullet marker is not followed by a space
    (here `"*Urgent"`) yields no action item at all — the code requires
    `startswith(('- ', '* ', '• '))` — so the claim's parenthetical "a line
    starting with any of the bullet markers qualifies" is false: the result
    is the two defaults and contains no stripped form of the line. -/
theorem bullet_marker_without_space_not_extracted :
    (mockGenerate ⟨some "T", some "*Urgent"⟩).action_items = defaultActionItems ∧
    "Urgent" ∉ (mockGenerate ⟨some "T", some "*Urgent"⟩).action_items := by
  exact ⟨rfl, by decide⟩

/-- C4 (amended): for every line of the stripped body that, once stripped,
    starts with a bullet marker followed by a space (`"- "`, `"* "`, or
    `"• "`), the action items contain that line with all leading marker
    characters and surrounding whitespace stripped. -/
theorem mock_bullet_line_in_action_items (e : EmailMsg) (l : List Char)
    (hl : l ∈ splitlinesL (stripL (e.body.getD "").data))
    (hb : isPrefixCh ['-', ' '] (stripL l) = true ∨
          isPrefixCh ['*', ' '] (stripL l) = true ∨
          isPrefixCh ['•', ' '] (stripL l) = true) :
    String.mk (stripL ((stripL l).dropWhile isMarkerChar)) ∈
      (mockGenerate e).action_items := by
  have hnonempty : (stripL l).isEmpty = false := by
    rcases hb with hb | hb | hb <;>
      (cases hsl : stripL l with
       | nil => rw [hsl] at hb; simp [isPrefixCh] at hb
       | cons c cs => rfl)
  have hor : (isPrefixCh ['-', ' '] (stripL l) || isPrefixCh ['*', ' '] (stripL l) ||
      isPrefixCh ['•', ' '] (stripL l)) = true := by
    rcases hb with hb | hb | hb <;> simp [hb]
  have hcl : classifyLine l =
      some (String.mk (stripL ((stripL l).dropWhile isMarkerChar))) := by
    simp [classifyLine, hnonempty, hor]
  have hmem : String.mk (stripL ((stripL l).dropWhile isMarkerChar)) ∈
      mockActionItems (e.body.getD "") :=
    List.mem_filterMap.mpr ⟨l, hl, hcl⟩
  have hne : (mockActionItems (e.body.getD "")).isEmpty = false := by
    cases hm : mockActionItems (e.body.getD "") with
    | nil => rw [hm] at hmem; simp at hmem
    | cons a t => rfl
  simpa [mockGenerate, hne] using hmem

/-- C4 witness: the amended theorem applied to a concrete email with bullet
    line `"- call Bob"`. -/
theorem mock_bullet_line_in_action_items_witness :
    ("- call Bob".data ∈
      splitlinesL (stripL ("- call Bob\nnothing else" : String).data)) ∧
    "call Bob" ∈ (mockGenerate ⟨some "s", some "- call Bob\nnothing else"⟩).action_items := by
  refine ⟨by decide, ?_⟩
  exact (show String.mk (stripL ((stripL "- call Bob".data).dropWhile isMarkerChar))
      = "call Bob" from rfl) ▸
    mock_bullet_line_in_action_items ⟨some "s", some "- call Bob\nnothing else"⟩
      "- call Bob".data (by decide) (Or.inl (by decide))

/-- C5: a body none of whose lines qualifies yields exactly the two fixed
    default action items, in order. -/
theorem mock_defaults_when_no_qualifying_lines (e : EmailMsg)
    (h : ∀ l ∈ splitlinesL (stripL (e.body.getD "").data), classifyLine l = none) :
    (mockGenerate e).action_items =
      [ "Review the email content and confirm next steps."
      , "Reply with a brief acknowledgment and proposed timeline." ] := by
  have hnil : mockActionItems (e.body.getD "") = [] := by
    unfold mockActionItems
    exact List.filterMap_eq_nil_iff.mpr h
  simp [mockGenerate, hnil, defaultActionItems]

/-- C5 witness: a concrete body with no qualifying line. -/
theorem mock_defaults_when_no_qualifying_lines_witness :
    (∀ l ∈ splitlinesL (stripL ("just chatting, no tasks here" : String).data),
      classifyLine l = none) ∧
    (mockGenerate ⟨some "s", some "just chatting, no tasks here"⟩).action_items =
      [ "Review the email content and confirm next steps."
      , "Reply with a brief acknowledgment and proposed timeline." ] :=
  ⟨by decide, mock_defaults_when_no_qualifying_lines _ (by decide)⟩

/-! ### Claim C8: hosted streaming failure semantics -/

/-- C8 counterexample: `GroqLlmClient.astream` has no exception handler, so
    an upstream error escapes the generator instead of being swallowed —
    refuting the claim for the Groq variant. -/
theorem groq_astream_propagates_upstream_error :
    (groqAstreamModel [some "partial"] (some (.runtimeError "upstream failure"))).2
      = some (.runtimeError "upstream failure") := rfl

/-- C8 (amended): when the upstream stream raises, the Gemini variant swallows
    the error and appends the fallback tokens obtained by re-tokenizing the
    markup-stripped draft of an independent `generate` call, while the Groq
    variant propagates the error after its already-yielded tokens. -/
theorem hosted_astream_error_paths (chunks : List String) (err : PyErr)
    (draft : String) (deltas : List (Option String)) :
    geminiAstreamModel chunks (some err) draft
        = ((chunks.map geminiChunkTokens).flatten ++ fallbackTokens draft, none) ∧
    groqAstreamModel deltas (some err)
        = ((deltas.map groqDeltaTokens).flatten, some err) := ⟨rfl, rfl⟩

/-! ### Claim C9: construction-time credential failures -/

/-- C9 counterexample: the construction-time failure is the builtin generic
    `RuntimeError` (`raise RuntimeError("GEMINI_API_KEY is not set")`), not a
    dedicated `ProviderUnavailable`-style exception type, refuting the
    claim's "typed ... not a generic error" part. -/
theorem gemini_init_missing_key_runtime_error :
    geminiInit envNoKeys = .error (.runtimeError "GEMINI_API_KEY is not set") ∧
    groqInit envNoKeys = .error (.runtimeError "GROQ_API_KEY is not set") := ⟨rfl, rfl⟩

/-- C9 (amended): for both hosted variants, an absent or empty credential
    variable fails at construction time with a descriptive (but generic)
    `RuntimeError` naming the variable, and a present credential (with the
    SDK importable) constructs successfully, so the failure is never deferred
    to `generate`/`astream` (which never read the credential). -/
theorem hosted_init_credential_check (env : Env) :
    (pyTruthy env.geminiApiKey = false →
      geminiInit env = .error (.runtimeError "GEMINI_API_KEY is not set")) ∧
    (pyTruthy env.geminiApiKey = true → env.genaiInstalled = true →
      geminiInit env = .ok .gemini) ∧
    (pyTruthy env.groqApiKey = false →
      groqInit env = .error (.runtimeError "GROQ_API_KEY is not set")) ∧
    (pyTruthy env.groqApiKey = true → env.groqInstalled = true →
      groqInit env = .ok .groq) := by
  refine ⟨fun h => ?_, fun h hi => ?_, fun h => ?_, fun h hi => ?_⟩ <;>
    simp [geminiInit, groqInit, *]

/-- C9 witness: the amended theorem applied with the credential absent and
    with it present. -/
theorem hosted_init_credential_check_witness :
    pyTruthy envNoKeys.geminiApiKey = false ∧
    geminiInit envNoKeys = .error (.runtimeError "GEMINI_API_KEY is not set") ∧
    pyTruthy envGeminiOnly.geminiApiKey = true ∧
    geminiInit envGeminiOnly = .ok .gemini :=
  ⟨rfl, (hosted_init_credential_check envNoKeys).1 rfl, rfl,
    (hosted_init_credential_check envGeminiOnly).2.1 rfl rfl⟩

/-! ### Claim C10: mock result invariants -/

/-- C10: every mock `generate` result has a non-empty `action_items` list,
    empty `citations`, and summary `"Summary of: "` followed by the subject
    (or `"(no subject)"` when the subject key is absent). -/
theorem mock_generate_invariants (e : EmailMsg) :
    (mockGenerate e).action_items ≠ [] ∧
    (mockGenerate e).citations = [] ∧
    (mockGenerate e).summary = "Summary of: " ++ e.subject.getD "(no subject)" := by
  refine ⟨?_, rfl, rfl⟩
  cases hm : mockActionItems (e.body.getD "") with
  | nil => simp [mockGenerate, hm, defaultActionItems]
  | cons a t => simp [mockGenerate, hm]

/-! ### Claim C7: streaming event sequence shape -/

/-- Translating token chunks gives token events. -/
theorem map_chunkToSse_token (ts : List String) :
    (ts.map StreamChunk.token).map chunkToSse = ts.map SseEvent.token := by
  induction ts with
  | nil => rfl
  | cons t ts ih => simp [chunkToSse, ih]

/-- No token event is a final event. -/
theorem filter_final_token_map (ts : List String) :
    (ts.map SseEvent.token).filter isFinalEv = [] := by
  induction ts with
  | nil => rfl
  | cons t ts ih => simp [isFinalEv, ih]

/-- No token event is a status event. -/
theorem countP_status_token_map (ts : List String) :
    (ts.map SseEvent.token).countP isStatusEv = 0 := by
  induction ts with
  | nil => rfl
  | cons t ts ih => simp [List.countP_cons, isStatusEv, ih]

/-- Appending one element determines the last element. -/
theorem getLast?_append_single {α : Type} (l : List α) (a : α) :
    (l ++ [a]).getLast? = some a := by
  induction l with
  | nil => rfl
  | cons x l ih =>
    cases l with
    | nil => rfl
    | cons y l' => simpa [List.cons_append] using ih

/-- C7: for every email, the mock-instantiated streaming endpoint emits a
    sequence that begins with one `status_update`, ends with one
    `status_update`, contains exactly two status events in total and exactly
    one `final` event, and that `final` event carries precisely the result of
    the independent `generate` call made by `process_email_streaming` (not
    anything derived from the token events). -/
theorem stream_event_sequence_shape (e : EmailMsg) :
    (mockEndpointStream e).head? =
      some (.statusUpdate "initialising LLM agent (mock)") ∧
    (mockEndpointStream e).getLast? = some (.statusUpdate "done") ∧
    (mockEndpointStream e).filter isFinalEv = [.finalEv (mockGenerate e)] ∧
    (mockEndpointStream e).countP isStatusEv = 2 := by
  unfold mockEndpointStream streamerEvents processEmailStreamingChunks
  refine ⟨rfl, ?_, ?_, ?_⟩
  · rw [show ([SseEvent.statusUpdate "initialising LLM agent (mock)"] ++
        ((mockStreamTokens e).map StreamChunk.token ++
          [StreamChunk.finalChunk (mockGenerate e)]).map chunkToSse ++
        [SseEvent.statusUpdate "done"]) =
        (([SseEvent.statusUpdate "initialising LLM agent (mock)"] ++
          ((mockStreamTokens e).map StreamChunk.token ++
            [StreamChunk.finalChunk (mockGenerate e)]).map chunkToSse) ++
        [SseEvent.statusUpdate "done"]) from by simp]
    exact getLast?_append_single _ _
  · simp [List.map_append, List.filter_append, map_chunkToSse_token,
      filter_final_token_map, chunkToSse, isFinalEv]
  · simp [List.map_append, List.countP_append, map_chunkToSse_token,
      countP_status_token_map, chunkToSse, isStatusEv, isFinalEv,
      List.countP_cons]

/-! ### Claim C6: counting `<li>` occurrences in the draft -/

/-- The pattern whose occurrences C6 counts. -/
def liPat : List Char := ['<', 'l', 'i', '>']

/-- A prefix test only looks at the first `p.length` characters. -/
theorem isPrefixCh_append_left (p : List Char) :
    ∀ (l r : List Char), p.length ≤ l.length →
      isPrefixCh p (l ++ r) = isPrefixCh p l := by
  induction p with
  | nil => intro l r _; rfl
  | cons a ps ih =>
    intro l r h
    cases l with
    | nil => simp at h
    | cons b l' =>
      simp only [List.cons_append, isPrefixCh, List.append_eq]
      rw [ih l' r (Nat.le_of_succ_le_succ (by simpa using h))]

/-- A block without `<` contributes no `<li>` occurrence and hides none. -/
theorem countOcc_append_no_head (xs ys : List Char) (h : '<' ∉ xs) :
    countOcc liPat (xs ++ ys) = countOcc liPat ys := by
  induction xs with
  | nil => rfl
  | cons c xs ih =>
    rw [List.mem_cons] at h
    push_neg at h
    have hc : ('<' == c) = false := beq_eq_false_iff_ne.mpr h.1
    have hpre : isPrefixCh liPat (c :: (xs ++ ys)) = false := by
      simp [liPat, isPrefixCh, hc]
    simp only [List.cons_append, countOcc, List.append_eq, hpre, if_false, ih h.2]
    simp

/-- Splitting the `<li>` count at a block boundary: when the last three
    characters of the left block contain no `<`, no occurrence straddles the
    boundary, and the count is additive. -/
theorem countOcc_append_split (xs ys : List Char)
    (h : ∀ c ∈ xs.reverse.take 3, ¬c = '<') :
    countOcc liPat (xs ++ ys) = countOcc liPat xs + countOcc liPat ys := by
  induction xs with
  | nil => simp [countOcc]
  | cons x xs ih =>
    have hh : ∀ c ∈ xs.reverse.take 3, ¬c = '<' := by
      intro c hc
      apply h
      rw [List.reverse_cons, List.take_append_eq_append_take]
      exact List.mem_append_left _ hc
    by_cases hlong : 3 ≤ xs.length
    · have h4 : liPat.length ≤ (x :: xs).length := by
        simp only [liPat, List.length_cons, List.length]
        omega
      have hpre : isPrefixCh liPat (x :: (xs ++ ys)) = isPrefixCh liPat (x :: xs) := by
        have := isPrefixCh_append_left liPat (x :: xs) ys h4
        simpa [List.cons_append] using this
      simp only [List.cons_append, countOcc, List.append_eq, hpre, ih hh]
      omega
    · have hx : ¬x = '<' := by
        apply h
        rw [List.reverse_cons]
        have hlen : (xs.reverse ++ [x]).length ≤ 3 := by
          simp only [List.length_append, List.length_reverse, List.length_singleton]
          omega
        rw [List.take_of_length_le hlen]
        exact List.mem_append_right _ (by simp)
      have hc : ('<' == x) = false := beq_eq_false_iff_ne.mpr (fun hq => hx hq.symm)
      have hpre1 : isPrefixCh liPat (x :: (xs ++ ys)) = false := by
        simp [liPat, isPrefixCh, hc]
      have hpre2 : isPrefixCh liPat (x :: xs) = false := by
        simp [liPat, isPrefixCh, hc]
      simp only [List.cons_append, countOcc, List.append_eq, hpre1, hpre2, if_false, ih hh]
      omega

/-- Appending strings appends their character data. -/
theorem strData_append (a b : String) : (a ++ b).data = a.data ++ b.data := by
  cases a; cases b; rfl

/-- The characters of one rendered `<li>` element. -/
theorem wrapLi_data (it : String) :
    (wrapLi it).data = "<li>".data ++ it.data ++ "</li>".data := by
  simp [wrapLi, strData_append]

/-- Each rendered item with a `<`-free body contributes exactly one `<li>`
    occurrence to the list section. -/
theorem countOcc_liSection (items : List String) (rest : List Char)
    (h : ∀ it ∈ items, '<' ∉ it.data) :
    countOcc liPat (((items.map wrapLi).map String.data).flatten ++ rest)
      = items.length + countOcc liPat rest := by
  induction items with
  | nil => simp
  | cons it items ih =>
    have hit : '<' ∉ it.data := h it (by simp)
    have hrest : ∀ x ∈ items, '<' ∉ x.data := fun x hx => h x (by simp [hx])
    simp only [List.map_cons, List.flatten_cons, wrapLi_data, List.append_assoc]
    rw [countOcc_append_split "<li>".data _ (by decide)]
    rw [countOcc_append_no_head it.data _ hit]
    rw [countOcc_append_split "</li>".data _ (by decide)]
    rw [ih hrest]
    have h1 : countOcc liPat ['<', 'l', 'i', '>'] = 1 := by decide
    have h2 : countOcc liPat ['<', '/', 'l', 'i', '>'] = 0 := by decide
    have h1b : countOcc liPat "<li>".data = 1 := h1
    have h2b : countOcc liPat "</li>".data = 0 := h2
    simp only [List.length_cons]
    omega

/-- C6 counterexample: the subject is interpolated verbatim into the draft,
    so a subject containing `<li>` pushes the number of `<li>` occurrences
    past 5 (here: six from the subject, two from the default items). -/
theorem mock_draft_li_count_exceeds_five_via_subject :
    5 < countOcc liPat
      (mockGenerate ⟨some "<li><li><li><li><li><li>", some ""⟩).draft_reply_html.data := by
  decide

/-- C6 (amended): at most the first five action items are wrapped in `<li>`
    elements, so whenever neither the subject nor any extracted action item
    itself contains a `<` character, the draft holds at most 5 occurrences of
    `"<li>"` however many action items the body produced. -/
theorem mock_draft_li_count_le_five (e : EmailMsg)
    (hs : '<' ∉ (e.subject.getD "(no subject)").data)
    (hi : ∀ it ∈ mockActionItems (e.body.getD ""), '<' ∉ it.data) :
    countOcc liPat (mockGenerate e).draft_reply_html.data ≤ 5 := by
  have main : ∀ (items : List String), (∀ it ∈ items, '<' ∉ it.data) →
      countOcc liPat (mockDraft (e.subject.getD "(no subject)") items).data ≤ 5 := by
    intro items hfree
    unfold mockDraft
    rw [strData_append, strData_append, strData_append, strData_append]
    simp only [List.append_assoc]
    rw [countOcc_append_split draftHead.data _ (by decide)]
    rw [countOcc_append_no_head _ _ hs]
    rw [countOcc_append_split draftMid.data _ (by decide)]
    rw [show (joinStr ((items.take 5).map wrapLi)).data
        = (((items.take 5).map wrapLi).map String.data).flatten from rfl]
    rw [countOcc_liSection (items.take 5) draftTail.data
        (fun it hit => hfree it (List.take_subset 5 items hit))]
    have h0 : countOcc liPat draftHead.data = 0 := by decide
    have h1 : countOcc liPat draftMid.data = 0 := by decide
    have h2 : countOcc liPat draftTail.data = 0 := by decide
    have h3 : (items.take 5).length ≤ 5 := List.length_take_le 5 items
    omega
  have hfree : ∀ it ∈ (if (mockActionItems (e.body.getD "")).isEmpty
      then defaultActionItems else mockActionItems (e.body.getD "")), '<' ∉ it.data := by
    cases hm : mockActionItems (e.body.getD "") with
    | nil => simp only [hm, List.isEmpty_nil, if_true]; decide
    | cons a t =>
      simp only [hm, List.isEmpty_cons, if_false]
      exact fun it hit => hi it (hm ▸ hit)
  exact main _ hfree

/-- C6 witness: a seven-bullet body and a `<`-free subject stay within the
    bound. -/
theorem mock_draft_li_count_le_five_witness :
    ('<' ∉ ("Status" : String).data) ∧
    (∀ it ∈ mockActionItems ("- a\n- b\n- c\n- d\n- e\n- f\n- g" : String),
      '<' ∉ it.data) ∧
    countOcc liPat (mockGenerate
      ⟨some "Status", some "- a\n- b\n- c\n- d\n- e\n- f\n- g"⟩).draft_reply_html.data ≤ 5 :=
  ⟨by decide, by decide, mock_draft_li_count_le_five _ (by decide) (by decide)⟩

/-! ### Claim C3: round-trip of an embedded JSON object -/

/-- Computing `firstIdx` over an append whose left part misses the target. -/
theorem firstIdx_append_of_not_mem (t : Char) (l1 l2 : List Char) (h : t ∉ l1) :
    firstIdx t (l1 ++ l2) = (firstIdx t l2).map (· + l1.length) := by
  induction l1 with
  | nil =>
    cases hfi : firstIdx t l2 <;> simp [hfi]
  | cons c l1 ih =>
    rw [List.mem_cons] at h
    push_neg at h
    have hc : (c == t) = false := beq_eq_false_iff_ne.mpr (fun hq => h.1 hq.symm)
    cases hfi : firstIdx t l2 with
    | none => simp [List.cons_append, firstIdx, hc, ih h.2, hfi]
    | some k =>
      simp only [List.cons_append, firstIdx, List.append_eq, hc,
        Bool.false_eq_true, if_false, ih h.2, hfi,
        Option.map_some', List.length_cons, Option.some.injEq]
      omega

/-- The greedy brace search on brace-guarded prose around a brace-delimited
    document returns exactly the document. -/
theorem regexBrace_sandwich (p1 s p2 : List Char)
    (hp1 : braceL ∉ p1) (hp2 : braceR ∉ p2)
    (hhead : s.head? = some braceL) (hlast : s.getLast? = some braceR) :
    regexBraceSearch (p1 ++ s ++ p2) = some s := by
  obtain ⟨t, rfl⟩ : ∃ t, s = braceL :: t := by
    cases s with
    | nil => simp at hhead
    | cons c cs =>
      simp only [List.head?_cons, Option.some.injEq] at hhead
      exact ⟨cs, by rw [hhead]⟩
  obtain ⟨u, hu⟩ : ∃ u, (braceL :: t).reverse = braceR :: u := by
    have h1 : (braceL :: t).reverse.head? = some braceR := by
      rw [List.head?_reverse]; exact hlast
    cases hrev : (braceL :: t).reverse with
    | nil => rw [hrev] at h1; simp at h1
    | cons d ds =>
      rw [hrev] at h1
      simp only [List.head?_cons, Option.some.injEq] at h1
      exact ⟨ds, by rw [h1]⟩
  have htlen : 1 ≤ t.length := by
    cases t with
    | nil =>
      exfalso
      have : braceL = braceR := by simpa [List.getLast?] using hlast
      exact absurd this (by decide)
    | cons a t' => simp only [List.length_cons]; omega
  have hfi : firstIdx braceL (p1 ++ (braceL :: t) ++ p2) = some p1.length := by
    rw [List.append_assoc, firstIdx_append_of_not_mem braceL p1 _ hp1]
    rw [show firstIdx braceL ((braceL :: t) ++ p2) = some 0 from by
      simp [List.cons_append, firstIdx]]
    simp
  have hli : lastIdx braceR (p1 ++ (braceL :: t) ++ p2)
      = some (p1.length + (braceL :: t).length - 1) := by
    unfold lastIdx
    rw [show (p1 ++ (braceL :: t) ++ p2).reverse
        = p2.reverse ++ ((braceL :: t).reverse ++ p1.reverse) from by
      simp [List.reverse_append, List.append_assoc]]
    rw [firstIdx_append_of_not_mem braceR p2.reverse _ (by simpa using hp2)]
    rw [hu]
    rw [show firstIdx braceR ((braceR :: u) ++ p1.reverse) = some 0 from by
      simp [List.cons_append, firstIdx]]
    have hlu : u.length + 1 = t.length + 1 := by
      have := congrArg List.length hu
      simpa [List.length_reverse, List.length_cons] using this.symm
    simp only [Option.map_some', Option.some.injEq, List.length_append,
      List.length_reverse, List.length_cons]
    omega
  have hcan : p1.length < p1.length + (braceL :: t).length - 1 := by
    simp only [List.length_cons]
    omega
  simp only [regexBraceSearch, hfi, hli]
  rw [if_pos hcan]
  have hdrop : (p1 ++ (braceL :: t) ++ p2).drop p1.length = (braceL :: t) ++ p2 := by
    rw [List.append_assoc]
    exact List.drop_left p1 _
  rw [hdrop]
  rw [show p1.length + (braceL :: t).length - 1 - p1.length + 1
      = (braceL :: t).length from by simp only [List.length_cons]; omega]
  rw [List.take_left]

/-- C3 counterexample: a single closing brace in the trailing prose extends
    the greedy regex match past the object, the extended region is not JSON,
    and the unprotected second `json.loads` raises — so the round-trip fails
    for arbitrary prose. -/
theorem normalizer_roundtrip_fails_with_brace_prose :
    parseGenerationToResult
      "\x7b\"summary\": \"S1\", \"draft_reply_html\": \"D\"\x7d \x7d"
      = .error .jsonDecodeError := rfl

/-- C3 (amended): for a `GenerationResult`-shaped JSON document `s` (an
    object with string `summary` and `draft_reply_html` fields, starting with
    `{` and ending with `}` as serializers produce) embedded between prose
    `p1` with no opening brace and `p2` with no closing brace, and such that
    the concatenation is not itself a complete JSON document (or the prose is
    empty), the normalizer recovers both fields exactly. -/
theorem normalizer_embedded_roundtrip (p1 s p2 : List Char)
    (fs : List (String × JsonValue)) (su dr : String)
    (hload : jsonLoadsL s = some (.obj fs))
    (hsu : dictGet fs "summary" = some (.str su))
    (hdr : dictGet fs "draft_reply_html" = some (.str dr))
    (hp1 : braceL ∉ p1) (hp2 : braceR ∉ p2)
    (hhead : s.head? = some braceL) (hlast : s.getLast? = some braceR)
    (hwhole : jsonLoadsL (p1 ++ s ++ p2) = none ∨ (p1 = [] ∧ p2 = [])) :
    (parseGenCore (p1 ++ s ++ p2)).map (fun r => (r.summary, r.draft_reply_html))
      = .ok (su, dr) := by
  have hfin : (finishObj (.obj fs)).map (fun r => (r.summary, r.draft_reply_html))
      = .ok (su, dr) := by
    simp [finishObj, hsu, hdr, pyStr, Except.map]
  rcases hwhole with hnone | ⟨hp1e, hp2e⟩
  · simp only [parseGenCore, hnone,
      regexBrace_sandwich p1 s p2 hp1 hp2 hhead hlast, hload]
    exact hfin
  · subst hp1e; subst hp2e
    simp only [List.nil_append, List.append_nil]
    simp only [parseGenCore, hload]
    exact hfin

/-- The embedded document used by the C3 witness. -/
def roundtripJson : String :=
  "\x7b\"summary\": \"S1\", \"action_items\": [], \"draft_reply_html\": \"<p>D</p>\"\x7d"

/-- C3 witness: the amended theorem applied to the concrete document
    `roundtripJson` embedded in brace-free prose. -/
theorem normalizer_embedded_roundtrip_witness :
    jsonLoadsL roundtripJson.data
      = some (.obj [("summary", .str "S1"), ("action_items", .arr []),
                    ("draft_reply_html", .str "<p>D</p>")]) ∧
    jsonLoadsL ("Result: ".data ++ roundtripJson.data ++ " Thanks.".data) = none ∧
    (parseGenCore ("Result: ".data ++ roundtripJson.data ++ " Thanks.".data)).map
        (fun r => (r.summary, r.draft_reply_html)) = .ok ("S1", "<p>D</p>") := by
  refine ⟨rfl, rfl, ?_⟩
  exact normalizer_embedded_roundtrip _ _ _ _ _ _ rfl rfl rfl
    (by decide) (by decide) rfl rfl (Or.inl rfl)

end MailAssist
